import Mathlib

/-!
Shallow embedding of the voice-activity-detection (VAD) / recorder /
turn-orchestration core of the `web-tts-llm-asr` repository.

Sources embedded here:
* `src/src/hooks/useAudioRecorder.ts` (the second, elaborated hook variant in
  that file): the `detect` analysis tick, `stop`, the `start` reset logic, the
  `dataavailable` and `stop` event handlers of the `MediaRecorder`, and
  `cleanup`.
* `src/src/App.tsx`: `estimateTokens`, `pruneConversationForContext`,
  `handleRecordingComplete` (transcript filtering, `BLANK_AUDIO` handling and
  continuous-session deduplication).

Modelling conventions: JS numbers are modelled by `ℚ` (exact rational
arithmetic in place of IEEE doubles); `Math.sqrt` is modelled by `Rat.sqrt`,
which agrees with the JS function at the perfect squares appearing in this
development (0 and 1) and shares the properties the proofs use
(`Rat.sqrt 0 = 0` and nonnegativity).  Byte frequency magnitudes
(`getByteFrequencyData`) are `ℕ`.  The EQ-visualization block of `detect`
(`eqLevelsRef`/`onLevels`) is omitted: it writes no state that the VAD logic
or any claim reads.  Console logging is omitted throughout.
-/

namespace VoiceLoop

/-! ## Level analyzer (`detect`, lines 362-440 of the hook) -/

/-- One analysis frame: `timeBuffer` from `getFloatTimeDomainData` and
`frequencyBuffer` from `getByteFrequencyData`. -/
structure Frame where
  timeDomain : List ℚ
  freq : List ℕ
deriving Repr, DecidableEq

/-- `sumSquares` accumulator loop over the time-domain window. -/
def sumSquares (samples : List ℚ) : ℚ :=
  samples.foldl (fun acc sample => acc + sample * sample) 0

/-- `rms = Math.sqrt(sumSquares / timeBuffer.length)`. -/
def rmsOf (samples : List ℚ) : ℚ :=
  Rat.sqrt (sumSquares samples / (samples.length : ℚ))

/-- Adjacent-sample sign-change counter (loop at lines 419-425): a crossing is
`(curr >= 0 && prev < 0) || (curr < 0 && prev >= 0)`. -/
def zeroCrossings : List ℚ → ℕ
  | prev :: curr :: rest =>
      (if (curr ≥ 0 ∧ prev < 0) ∨ (curr < 0 ∧ prev ≥ 0) then 1 else 0) +
        zeroCrossings (curr :: rest)
  | _ => 0

/-- `zcr = zeroCrossings / timeBuffer.length`. -/
def zcrOf (samples : List ℚ) : ℚ :=
  (zeroCrossings samples : ℚ) / (samples.length : ℚ)

/-- Total spectral energy: sum over all bins of `frequencyBuffer[i] / 255`. -/
def totalEnergyOf (f : Frame) : ℚ :=
  (f.freq.map fun m : ℕ => (m : ℚ) / 255).sum

/-- `speechMinBin = Math.floor((300 / nyquist) * binCount)`. -/
def speechMinBin (sampleRate : ℚ) (binCount : ℕ) : ℤ :=
  ⌊300 / (sampleRate / 2) * (binCount : ℚ)⌋

/-- `speechMaxBin = Math.ceil((3400 / nyquist) * binCount)`. -/
def speechMaxBin (sampleRate : ℚ) (binCount : ℕ) : ℤ :=
  ⌈3400 / (sampleRate / 2) * (binCount : ℚ)⌉

/-- Spectral energy restricted to bins `i` with
`speechMinBin ≤ i ≤ speechMaxBin` (the 300-3400 Hz speech band). -/
def speechEnergyOf (sampleRate : ℚ) (f : Frame) : ℚ :=
  (((f.freq.enum.filter fun p =>
      decide (speechMinBin sampleRate f.freq.length ≤ (p.1 : ℤ)) &&
        decide ((p.1 : ℤ) ≤ speechMaxBin sampleRate f.freq.length)).map
    fun p => (p.2 : ℚ) / 255)).sum

/-- `speechRatio = totalEnergy > 0 ? speechEnergy / totalEnergy : 0`. -/
def speechRatioOf (sampleRate : ℚ) (f : Frame) : ℚ :=
  if totalEnergyOf f > 0 then speechEnergyOf sampleRate f / totalEnergyOf f else 0

/-! ## VAD configuration and state (the hook's refs) -/

inductive StopReason
  | manual
  | silence
  | max_duration
deriving Repr, DecidableEq

/-- Options of `useAudioRecorder` read by the analysis tick, plus the audio
graph parameters (`analyser.fftSize`, `analyser.context.sampleRate`). -/
structure VadConfig where
  enableVAD : Bool
  minRecordingMs : ℚ
  maxRecordingMs : ℚ
  silenceDurationMs : ℚ
  sampleRate : ℚ
  fftSize : ℕ
deriving Repr, DecidableEq

/-- Hook defaults (`DEFAULT_MIN_RECORDING_MS` etc.) with a 48 kHz context and
`fftSize = 2048` as configured in `initializeAnalyser`. -/
def defaultVadConfig : VadConfig :=
  { enableVAD := true, minRecordingMs := 450, maxRecordingMs := 15000,
    silenceDurationMs := 900, sampleRate := 48000, fftSize := 2048 }

/-- The mutable refs of the hook that the analysis tick and the stop logic
touch.  `recording` models `recorderRef.current?.state === 'recording'`. -/
structure VadState where
  smoothedEnergy : ℚ
  backgroundNoise : ℚ
  speechActive : Bool
  silenceTriggered : Bool
  accumulatedSilence : ℚ
  speechFrames : ℕ
  recordingStartedAt : ℚ
  lastSpeechTime : ℚ
  recording : Bool
  stopReason : StopReason
deriving Repr, DecidableEq

/-- Initial ref values (`useRef(0.0004)` etc.). -/
def initialVadState : VadState :=
  { smoothedEnergy := 0, backgroundNoise := 0.0004, speechActive := false,
    silenceTriggered := false, accumulatedSilence := 0, speechFrames := 0,
    recordingStartedAt := 0, lastSpeechTime := 0, recording := false,
    stopReason := .manual }

/-- `smoothedEnergyRef.current = energyAlpha * rms + (1 - energyAlpha) * smoothedEnergyRef.current`
with `energyAlpha = 0.3`. -/
def smoothedAfter (s : VadState) (f : Frame) : ℚ :=
  0.3 * rmsOf f.timeDomain + (1 - 0.3) * s.smoothedEnergy

/-- `dynamicThreshold = Math.max(backgroundNoise * 2.0, 0.0004)`. -/
def dynamicThresholdOf (s : VadState) : ℚ :=
  max (s.backgroundNoise * 2.0) 0.0004

/-- `silenceThreshold = Math.max(backgroundNoise * 1.3, 0.0003)`. -/
def silenceThresholdOf (s : VadState) : ℚ :=
  max (s.backgroundNoise * 1.3) 0.0003

/-- `isSpeechLike = hasEnergy && (hasSpeechSpectrum || hasReasonableZCR)`,
all three signals computed on this tick (the smoothed energy already updated
with this frame's rms, thresholds from the carried-over background noise). -/
def isSpeechLikeAt (cfg : VadConfig) (s : VadState) (f : Frame) : Bool :=
  let smoothed := smoothedAfter s f
  let hasEnergy := decide (smoothed > dynamicThresholdOf s)
  let hasSpeechSpectrum := decide (speechRatioOf cfg.sampleRate f > 0.25)
  let zcr := zcrOf f.timeDomain
  let hasReasonableZCR := decide (zcr > 0.02) && decide (zcr < 0.4)
  hasEnergy && (hasSpeechSpectrum || hasReasonableZCR)

/-- `frameDurationMs = (analyser.fftSize / analyser.context.sampleRate) * 1000`. -/
def frameDurationMs (cfg : VadConfig) : ℚ :=
  (cfg.fftSize : ℚ) / cfg.sampleRate * 1000

/-- `stop(reason)` (lines 292-315): a no-op unless the recorder is in the
`'recording'` state; otherwise records the stop reason, clears the speech
flags and stops the recorder.  The second component is the stop event this
call causes (`none` when the call was a no-op). -/
def stopRecorder (reason : StopReason) (s : VadState) : VadState × Option StopReason :=
  if s.recording then
    ({ s with stopReason := reason, speechActive := false,
              silenceTriggered := false, recording := false }, some reason)
  else (s, none)

/-- The max-duration guard at the end of the `enableVAD` block (lines
563-570), applied to the state left by the speech/silence branches. -/
def maxDurationCheck (cfg : VadConfig) (now : ℚ) (p : VadState × Option StopReason) :
    VadState × Option StopReason :=
  if p.1.recording = true ∧ p.1.recordingStartedAt ≠ 0 ∧
      now - p.1.recordingStartedAt > cfg.maxRecordingMs then
    let r := stopRecorder .max_duration p.1
    (r.1, if p.2.isSome then p.2 else r.2)
  else p

/-- The `isSpeechLike` branch of the VAD logic (lines 495-519): bump the
consecutive-speech-frame counter; on the third consecutive frame (or whenever
speech is already active) mark speech active, zero the silence accumulator,
clear the pending trigger and adapt the background noise slowly (98/2 blend,
ceiling 0.015). -/
def speechBranch (s : VadState) (now : ℚ) : VadState :=
  let s := { s with speechFrames := s.speechFrames + 1 }
  if s.speechFrames ≥ 3 ∨ s.speechActive = true then
    { s with speechActive := true, lastSpeechTime := now,
             accumulatedSilence := 0, silenceTriggered := false,
             backgroundNoise :=
               min (s.backgroundNoise * 0.98 + s.smoothedEnergy * 0.02) 0.015 }
  else s

/-- The non-speech branch (lines 520-561): reset the consecutive-speech
counter; while idle adapt the background noise (95/5 blend, capped at 0.01);
while speech is active accumulate silence and fire the offset stop when all
the offset conditions hold.  `silThr` and `ratio` are the silence threshold
and speech ratio computed earlier in the tick. -/
def noSpeechBranch (cfg : VadConfig) (silThr ratio : ℚ) (s : VadState) (now : ℚ) :
    VadState × Option StopReason :=
  let s := { s with speechFrames := 0 }
  let s :=
    if s.speechActive = false then
      { s with backgroundNoise :=
                 min (s.backgroundNoise * 0.95 + s.smoothedEnergy * 0.05) 0.01 }
    else s
  if s.speechActive = true then
    let s := { s with accumulatedSilence := s.accumulatedSilence + frameDurationMs cfg }
    let recordingElapsed := now - s.recordingStartedAt
    let isTrueSilence := s.smoothedEnergy < silThr ∧ ratio < 0.15
    if s.silenceTriggered = false ∧ s.accumulatedSilence ≥ cfg.silenceDurationMs ∧
        isTrueSilence ∧ recordingElapsed > cfg.minRecordingMs ∧ s.recording = true then
      stopRecorder .silence
        { s with silenceTriggered := true, speechActive := false,
                 accumulatedSilence := 0, speechFrames := 0 }
    else (s, none)
  else (s, none)

/-- One iteration of the `detect` analysis loop (lines 338-578), restricted to
the state it mutates: update the smoothed energy, then, only when `enableVAD`
holds, run the speech/non-speech branch followed by the max-duration guard.
The second component is the stop event issued by this tick, if any. -/
def detect (cfg : VadConfig) (s : VadState) (f : Frame) (now : ℚ) :
    VadState × Option StopReason :=
  let s₁ := { s with smoothedEnergy := smoothedAfter s f }
  if cfg.enableVAD then
    maxDurationCheck cfg now
      (if isSpeechLikeAt cfg s f then (speechBranch s₁ now, none)
       else noSpeechBranch cfg (silenceThresholdOf s) (speechRatioOf cfg.sampleRate f) s₁ now)
  else (s₁, none)

/-- The VAD-ref resets performed by `start()` before `recorder.start()`
(lines 696-705), including `recorder.start()` itself flipping the recorder
into the `'recording'` state. -/
def startResetVad (s : VadState) (now : ℚ) : VadState :=
  { s with backgroundNoise := max s.backgroundNoise 0.0004,
           smoothedEnergy := 0,
           recordingStartedAt := now,
           lastSpeechTime := now,
           speechActive := false,
           silenceTriggered := false,
           accumulatedSilence := 0,
           speechFrames := 0,
           recording := true }

/-- The VAD-ref resets performed by `cleanup()` (lines 185-201); the recorder
ref is nulled, so the recorder is no longer `'recording'`. -/
def cleanupVad (s : VadState) : VadState :=
  { s with speechActive := false, silenceTriggered := false,
           backgroundNoise := 0.0004, smoothedEnergy := 0, speechFrames := 0,
           stopReason := .manual, recording := false }

/-! ## Segment recorder: `start()` and the `MediaRecorder` event handlers -/

/-- Externally observable effects `start()` can perform. -/
inductive StartAction
  | getUserMedia
  | initAnalyser
  | createRecorder
  | recorderStart
deriving Repr, DecidableEq

/-- The hook's resource refs around the VAD state: `streamRef`,
`analyserRef`/`audioContextRef` (merged into one "analyser alive" flag),
`recorderRef`, `chunksRef`, the React `isRecording`/`recorderError` state.
Chunks are byte lists in arrival order. -/
structure RecorderModel where
  hasStream : Bool
  hasAnalyser : Bool
  hasRecorder : Bool
  chunks : List (List ℕ)
  vad : VadState
  recorderError : Option (List Char)
  isRecordingFlag : Bool
deriving Repr, DecidableEq

/-- `cleanup()` (lines 185-201): release stream and audio resources, null the
recorder, clear the chunk buffers and reset the VAD refs. -/
def cleanupModel (m : RecorderModel) : RecorderModel :=
  { m with hasStream := false, hasAnalyser := false, hasRecorder := false,
           chunks := [], vad := cleanupVad m.vad }

/-- `start()` (lines 584-729).  `mimeSupported` models
`getSupportedMimeType()` finding a codec, `mediaGranted` models the
`getUserMedia` promise resolving.  The returned action list records, in
order, which external acquisitions the call performed.  Error paths set
`recorderError` and run `cleanup()` (the error message text is not
modelled). -/
def startRecorder (mimeSupported mediaGranted : Bool) (m : RecorderModel) (now : ℚ) :
    RecorderModel × List StartAction :=
  let m0 := { m with recorderError := none }
  if mimeSupported = false then
    ({ cleanupModel m0 with recorderError := some [] }, [])
  else if m0.hasStream = false ∧ mediaGranted = false then
    ({ cleanupModel m0 with recorderError := some [] }, [.getUserMedia])
  else
    let acq := if m0.hasStream = false then ({ m0 with hasStream := true },
                 [StartAction.getUserMedia]) else (m0, [])
    let ana := if acq.1.hasAnalyser = false then ({ acq.1 with hasAnalyser := true },
                 acq.2 ++ [StartAction.initAnalyser]) else acq
    let rec_ := if ana.1.hasRecorder = false then ({ ana.1 with hasRecorder := true },
                 ana.2 ++ [StartAction.createRecorder]) else ana
    if rec_.1.vad.recording = true then rec_
    else
      ({ rec_.1 with chunks := [],
                     vad := startResetVad rec_.1.vad now,
                     isRecordingFlag := true }, rec_.2 ++ [StartAction.recorderStart])

/-- The `dataavailable` handler (lines 636-645): push the chunk only when
`event.data.size > 0`. -/
def dataAvailable (chunks : List (List ℕ)) (data : List ℕ) : List (List ℕ) :=
  if 0 < data.length then chunks ++ [data] else chunks

/-- Result of the recorder's `stop` event handler: the chunk buffer and stop
reason afterwards, the React recording flag, and whether/with what
`onRecordingComplete` was invoked (`none` = not invoked, `some none` =
invoked with `null`, `some (some bytes)` = invoked with the assembled
blob). -/
structure StopOutcome where
  chunks : List (List ℕ)
  stopReason : StopReason
  isRecordingFlag : Bool
  callback : Option (Option (List ℕ))
deriving Repr, DecidableEq

/-- The `stop` event handler (lines 647-684): only `silence` and
`max_duration` stops are processed; a manual stop discards the chunks and
never notifies the callback; otherwise the blob is the concatenation of all
chunks in arrival order, or `null` when there are none. -/
def handleStopEvent (reason : StopReason) (chunks : List (List ℕ)) : StopOutcome :=
  let shouldProcess := reason = StopReason.silence ∨ reason = StopReason.max_duration
  if ¬shouldProcess then
    { chunks := [], stopReason := .manual, isRecordingFlag := false, callback := none }
  else
    let hasAudio := 0 < chunks.length
    let blob := if hasAudio then some chunks.flatten else none
    { chunks := [], stopReason := .manual, isRecordingFlag := false, callback := some blob }

/-! ## Turn orchestrator (src/src/App.tsx) -/

/-- `SYSTEM_PROMPT` from App.tsx. -/
def SYSTEM_PROMPT : List Char :=
  "You are the voice of a hands-free companion. Keep replies short (max three sentences), helpful, and speak in the first person.".toList

/-- `estimateTokens = Math.ceil(text.length / 4)`. -/
def estimateTokens (text : List Char) : ℕ := (text.length + 3) / 4

inductive Role
  | user
  | assistant
deriving Repr, DecidableEq

/-- `ConversationTurn` from src/src/types/models.ts. -/
structure ConversationTurn where
  role : Role
  content : List Char
  timestamp : ℤ
deriving Repr, DecidableEq

/-- The `for (let i = history.length - 1; i >= 0; i--)` loop of
`pruneConversationForContext`, consuming the history newest-first
(`rev = history.reverse`) and unshifting kept turns onto `pruned`. -/
def pruneAux : List ConversationTurn → ℤ → List ConversationTurn → List ConversationTurn
  | [], _, pruned => pruned
  | turn :: rest, availableTokens, pruned =>
    let turnTokens : ℤ := estimateTokens turn.content
    if availableTokens - turnTokens < 0 ∧ 2 ≤ pruned.length then pruned
    else pruneAux rest (availableTokens - turnTokens) (turn :: pruned)

/-- `pruneConversationForContext` (App.tsx lines 205-223). -/
def pruneConversationForContext (history : List ConversationTurn)
    (maxContextTokens : ℤ) : List ConversationTurn :=
  let systemPromptTokens : ℤ := estimateTokens SYSTEM_PROMPT
  pruneAux history.reverse (maxContextTokens - systemPromptTokens - 1024) []

/-- Default value of the `maxContextTokens` parameter. -/
def defaultMaxContextTokens : ℤ := 1536

/-- JavaScript `\s` for the whitespace characters relevant here (the source
strings contain only ASCII; the full `\s` class additionally has Unicode
space characters, which behave identically in this logic). -/
def isJsWhitespace (c : Char) : Bool :=
  c == ' ' || c == '\t' || c == '\n' || c == '\r' || c == '\x0b' || c == '\x0c'

/-- `String.prototype.trim()`. -/
def trimChars (l : List Char) : List Char :=
  ((l.dropWhile isJsWhitespace).reverse.dropWhile isJsWhitespace).reverse

/-- The literal `[BLANK_AUDIO]` appearing in both App.tsx regexes. -/
def blankAudioToken : List Char := "[BLANK_AUDIO]".toList

/-- Case-insensitive equality of character lists (the `i` regex flag). -/
def lowerEq (a b : List Char) : Bool :=
  a.map Char.toLower == b.map Char.toLower

/-- `BLANK_AUDIO_PATTERN = /^\s*\[BLANK_AUDIO\]\s*$/i` as a predicate: the
string is optional whitespace, then the sentinel (case-insensitively), then
optional whitespace.  Since the sentinel contains no whitespace this is
exactly: after trimming both ends the remainder equals the sentinel up to
case. -/
def matchesBlankAudioPattern (l : List Char) : Bool :=
  lowerEq (trimChars l) blankAudioToken

/-- Case-insensitive "starts with the sentinel" test used by the stripper. -/
def startsWithBlankAudio (l : List Char) : Bool :=
  lowerEq (l.take blankAudioToken.length) blankAudioToken

/-- `rawText.replace(BLANK_AUDIO_STRIPPER, "")` with
`BLANK_AUDIO_STRIPPER = /\[BLANK_AUDIO\]/gi`: remove every (leftmost,
non-overlapping, case-insensitive) occurrence of the sentinel. -/
def stripBlankAudio : List Char → List Char
  | [] => []
  | c :: rest =>
    if startsWithBlankAudio (c :: rest) then
      stripBlankAudio ((c :: rest).drop blankAudioToken.length)
    else c :: stripBlankAudio rest
termination_by l => l.length
decreasing_by
  · rw [List.length_drop]
    have h13 : blankAudioToken.length = 13 := rfl
    rw [h13]
    simp only [List.length_cons]
    omega
  · simp

/-- The status messages `handleRecordingComplete` can surface (their text is
irrelevant to the claims; see App.tsx lines 324, 359, 368, 379). -/
inductive StatusMessage
  | noSpeechDetected
  | didNotHear
  | silenceDetected
deriving Repr, DecidableEq

/-- The orchestrator state `handleRecordingComplete` reads and writes:
conversation history (`turns`/`turnsRef`), `lastUtteranceRef`,
`detectedUtterances`, `alert` and `voiceSessionError`. -/
structure OrchestratorState where
  turns : List ConversationTurn
  lastUtterance : List Char
  detectedUtterances : List (List Char)
  alert : Option StatusMessage
  voiceSessionError : Option StatusMessage
deriving Repr, DecidableEq

/-- The transcript-filtering part of `handleRecordingComplete` (App.tsx lines
356-399), from `transcribeBatch` having produced `text` onward.  The second
component is `some sanitized` when execution reaches
`await processMessage(sanitized)` — i.e. when a user turn is appended and
generation/synthesis are invoked — and `none` when the utterance is
filtered out before that point. -/
def handleTranscript (sessionActive : Bool) (s : OrchestratorState) (text : List Char) :
    OrchestratorState × Option (List Char) :=
  let rawText := trimChars text
  if rawText.length = 0 then
    ({ s with alert := some .didNotHear,
              voiceSessionError :=
                if sessionActive then some .didNotHear else s.voiceSessionError }, none)
  else if matchesBlankAudioPattern rawText then
    (if sessionActive then { s with voiceSessionError := some .silenceDetected }
     else { s with alert := some .silenceDetected }, none)
  else
    let sanitized := trimChars (stripBlankAudio rawText)
    if sanitized.length = 0 then
      (if sessionActive then { s with voiceSessionError := some .silenceDetected }
       else { s with alert := some .silenceDetected }, none)
    else if sessionActive = true ∧ sanitized = s.lastUtterance then (s, none)
    else
      let s2 :=
        if sessionActive then
          { s with lastUtterance := sanitized,
                   detectedUtterances := (sanitized :: s.detectedUtterances).take 5 }
        else s
      (s2, some sanitized)

/-- `handleRecordingComplete` (App.tsx lines 311-411) restricted to the state
above: `blobTranscript = none` models `blob === null`; `some text` models a
non-null blob whose transcription succeeded with `result.text = text`
(the audio-decode/visualization side effects and the `transcribeBatch`
failure path touch none of this state except the error banners). -/
def handleRecordingComplete (sessionActive : Bool) (s : OrchestratorState)
    (blobTranscript : Option (List Char)) : OrchestratorState × Option (List Char) :=
  match blobTranscript with
  | none =>
      (if sessionActive then { s with voiceSessionError := some .noSpeechDetected }
       else { s with alert := some .didNotHear }, none)
  | some text =>
      let s1 := { s with alert := none,
                         voiceSessionError :=
                           if sessionActive then none else s.voiceSessionError }
      handleTranscript sessionActive s1 text

/-! ## Lemmas about the analysis tick -/

lemma ratSqrt_zero : Rat.sqrt 0 = 0 := by
  have h := Rat.sqrt_eq (0 : ℚ)
  rw [mul_zero, abs_zero] at h
  exact h

lemma ratSqrt_one : Rat.sqrt 1 = 1 := by
  have h := Rat.sqrt_eq (1 : ℚ)
  rw [mul_one, abs_one] at h
  exact h

lemma rmsOf_nonneg (l : List ℚ) : 0 ≤ rmsOf l := Rat.sqrt_nonneg _

lemma smoothedAfter_nonneg (s : VadState) (f : Frame)
    (h : 0 ≤ s.smoothedEnergy) : 0 ≤ smoothedAfter s f := by
  unfold smoothedAfter
  have hr := rmsOf_nonneg f.timeDomain
  nlinarith

/-- The state invariant maintained by every operation of the hook: the noise
model stays strictly positive and below its ceiling, the smoothed energy
stays nonnegative, and a pending silence trigger never coexists with active
speech. -/
def VadInv (s : VadState) : Prop :=
  0 < s.backgroundNoise ∧ s.backgroundNoise ≤ 0.015 ∧ 0 ≤ s.smoothedEnergy ∧
    (s.speechActive = true → s.silenceTriggered = false)

lemma stopRecorder_bg (r : StopReason) (s : VadState) :
    (stopRecorder r s).1.backgroundNoise = s.backgroundNoise := by
  unfold stopRecorder
  split <;> rfl

lemma maxDurationCheck_bg (cfg : VadConfig) (now : ℚ) (p : VadState × Option StopReason) :
    (maxDurationCheck cfg now p).1.backgroundNoise = p.1.backgroundNoise := by
  unfold maxDurationCheck
  split
  · exact stopRecorder_bg _ _
  · rfl

lemma stopRecorder_inv (r : StopReason) (s : VadState) (h : VadInv s) :
    VadInv (stopRecorder r s).1 := by
  obtain ⟨h1, h2, h3, h4⟩ := h
  unfold stopRecorder
  split
  · exact ⟨h1, h2, h3, by simp⟩
  · exact ⟨h1, h2, h3, h4⟩

lemma maxDurationCheck_inv (cfg : VadConfig) (now : ℚ) (p : VadState × Option StopReason)
    (h : VadInv p.1) : VadInv (maxDurationCheck cfg now p).1 := by
  unfold maxDurationCheck
  split
  · exact stopRecorder_inv _ _ h
  · exact h

lemma speechBranch_inv (s : VadState) (now : ℚ) (h : VadInv s) :
    VadInv (speechBranch s now) := by
  obtain ⟨h1, h2, h3, h4⟩ := h
  simp only [speechBranch]
  split
  · refine ⟨?_, ?_, h3, by simp⟩
    · have hp : 0 < s.backgroundNoise * 0.98 + s.smoothedEnergy * 0.02 := by nlinarith
      simp only [lt_min_iff]
      exact ⟨hp, by norm_num⟩
    · exact min_le_right _ _
  · exact ⟨h1, h2, h3, h4⟩

lemma VadInv_def (s : VadState) : VadInv s ↔
    (0 < s.backgroundNoise ∧ s.backgroundNoise ≤ 0.015 ∧ 0 ≤ s.smoothedEnergy ∧
      (s.speechActive = true → s.silenceTriggered = false)) := Iff.rfl

lemma noSpeechBranch_inv (cfg : VadConfig) (silThr ratio : ℚ) (s : VadState) (now : ℚ)
    (h : VadInv s) : VadInv (noSpeechBranch cfg silThr ratio s now).1 := by
  obtain ⟨h1, h2, h3, h4⟩ := h
  cases hact : s.speechActive with
  | false =>
      simp only [noSpeechBranch, hact]
      norm_num
      rw [VadInv_def]
      dsimp only
      refine ⟨?_, ?_, h3, by simp⟩
      · simp only [lt_min_iff]
        exact ⟨by nlinarith, by norm_num⟩
      · exact le_trans (min_le_right _ _) (by norm_num)
  | true =>
      simp only [noSpeechBranch, hact]
      norm_num
      split
      · apply stopRecorder_inv
        rw [VadInv_def]
        dsimp only
        exact ⟨h1, h2, h3, by simp⟩
      · rw [VadInv_def]
        dsimp only
        exact ⟨h1, h2, h3, by simp [h4 hact]⟩

lemma detect_inv (cfg : VadConfig) (s : VadState) (f : Frame) (now : ℚ)
    (h : VadInv s) : VadInv (detect cfg s f now).1 := by
  obtain ⟨h1, h2, h3, h4⟩ := h
  have h₁ : VadInv { s with smoothedEnergy := smoothedAfter s f } :=
    ⟨h1, h2, smoothedAfter_nonneg s f h3, h4⟩
  unfold detect
  split
  · apply maxDurationCheck_inv
    split
    · exact speechBranch_inv _ _ h₁
    · exact noSpeechBranch_inv _ _ _ _ _ h₁
  · exact h₁

lemma stopRecorder_frames (r : StopReason) (s : VadState) :
    (stopRecorder r s).1.speechFrames = s.speechFrames := by
  unfold stopRecorder
  split <;> rfl

lemma stopRecorder_startedAt (r : StopReason) (s : VadState) :
    (stopRecorder r s).1.recordingStartedAt = s.recordingStartedAt := by
  unfold stopRecorder
  split <;> rfl

lemma stopRecorder_acc (r : StopReason) (s : VadState) :
    (stopRecorder r s).1.accumulatedSilence = s.accumulatedSilence := by
  unfold stopRecorder
  split <;> rfl

lemma stopRecorder_activeFalse (r : StopReason) (s : VadState)
    (h : s.speechActive = false) : (stopRecorder r s).1.speechActive = false := by
  unfold stopRecorder
  split <;> simp [h]

lemma stopRecorder_trigFalse (r : StopReason) (s : VadState)
    (h : s.silenceTriggered = false) : (stopRecorder r s).1.silenceTriggered = false := by
  unfold stopRecorder
  split <;> simp [h]

lemma stopRecorder_emits (r : StopReason) (s : VadState) (h : s.recording = true) :
    (stopRecorder r s).2 = some r := by
  unfold stopRecorder
  simp [h]

lemma maxDurationCheck_frames (cfg : VadConfig) (now : ℚ) (p : VadState × Option StopReason) :
    (maxDurationCheck cfg now p).1.speechFrames = p.1.speechFrames := by
  unfold maxDurationCheck
  split
  · exact stopRecorder_frames _ _
  · rfl

lemma maxDurationCheck_startedAt (cfg : VadConfig) (now : ℚ)
    (p : VadState × Option StopReason) :
    (maxDurationCheck cfg now p).1.recordingStartedAt = p.1.recordingStartedAt := by
  unfold maxDurationCheck
  split
  · exact stopRecorder_startedAt _ _
  · rfl

lemma maxDurationCheck_acc (cfg : VadConfig) (now : ℚ) (p : VadState × Option StopReason) :
    (maxDurationCheck cfg now p).1.accumulatedSilence = p.1.accumulatedSilence := by
  unfold maxDurationCheck
  split
  · exact stopRecorder_acc _ _
  · rfl

lemma maxDurationCheck_activeFalse (cfg : VadConfig) (now : ℚ)
    (p : VadState × Option StopReason) (h : p.1.speechActive = false) :
    (maxDurationCheck cfg now p).1.speechActive = false := by
  unfold maxDurationCheck
  split
  · exact stopRecorder_activeFalse _ _ h
  · exact h

lemma maxDurationCheck_trigFalse (cfg : VadConfig) (now : ℚ)
    (p : VadState × Option StopReason) (h : p.1.silenceTriggered = false) :
    (maxDurationCheck cfg now p).1.silenceTriggered = false := by
  unfold maxDurationCheck
  split
  · exact stopRecorder_trigFalse _ _ h
  · exact h

lemma maxDurationCheck_snd (cfg : VadConfig) (now : ℚ) (p : VadState × Option StopReason) :
    (maxDurationCheck cfg now p).2 = p.2 ∨
      (p.2 = none ∧ (maxDurationCheck cfg now p).2 = some .max_duration) := by
  unfold maxDurationCheck
  split
  · rename_i hcond
    cases hemit : p.2 with
    | some r => left; simp [hemit]
    | none =>
        right
        refine ⟨rfl, ?_⟩
        simp only [hemit, Option.isSome_none, Bool.false_eq_true, if_false]
        exact stopRecorder_emits _ _ hcond.1
  · left; rfl

lemma maxDurationCheck_fires (cfg : VadConfig) (now : ℚ) (p : VadState × Option StopReason)
    (hrec : p.1.recording = true) (hstart : p.1.recordingStartedAt ≠ 0)
    (hmax : now - p.1.recordingStartedAt > cfg.maxRecordingMs) (hemit : p.2 = none) :
    (maxDurationCheck cfg now p).2 = some .max_duration := by
  unfold maxDurationCheck
  rw [if_pos ⟨hrec, hstart, hmax⟩]
  simp only [hemit, Option.isSome_none, Bool.false_eq_true, if_false]
  exact stopRecorder_emits _ _ hrec

lemma speechBranch_recording (s : VadState) (now : ℚ) :
    (speechBranch s now).recording = s.recording := by
  simp only [speechBranch]
  split <;> rfl

lemma speechBranch_startedAt (s : VadState) (now : ℚ) :
    (speechBranch s now).recordingStartedAt = s.recordingStartedAt := by
  simp only [speechBranch]
  split <;> rfl

lemma speechBranch_frames (s : VadState) (now : ℚ) :
    (speechBranch s now).speechFrames = s.speechFrames + 1 := by
  simp only [speechBranch]
  split <;> rfl

lemma speechBranch_inactive (s : VadState) (now : ℚ) (hact : s.speechActive = false)
    (hlt : s.speechFrames + 1 < 3) : (speechBranch s now).speechActive = false := by
  simp only [speechBranch, hact]
  rw [if_neg]
  simp only [not_or]
  constructor
  · simp only [ge_iff_le, not_le]
    exact hlt
  · simp

lemma speechBranch_active (s : VadState) (now : ℚ) (hact : s.speechActive = true) :
    speechBranch s now =
      { s with speechFrames := s.speechFrames + 1, speechActive := true,
               lastSpeechTime := now, accumulatedSilence := 0, silenceTriggered := false,
               backgroundNoise :=
                 min (s.backgroundNoise * 0.98 + s.smoothedEnergy * 0.02) 0.015 } := by
  simp only [speechBranch, hact]
  norm_num

lemma noSpeechBranch_frames (cfg : VadConfig) (silThr ratio : ℚ) (s : VadState) (now : ℚ) :
    (noSpeechBranch cfg silThr ratio s now).1.speechFrames = 0 := by
  simp only [noSpeechBranch]
  split_ifs <;> first | rfl | (rw [stopRecorder_frames])

lemma noSpeechBranch_startedAt (cfg : VadConfig) (silThr ratio : ℚ) (s : VadState)
    (now : ℚ) :
    (noSpeechBranch cfg silThr ratio s now).1.recordingStartedAt =
      s.recordingStartedAt := by
  simp only [noSpeechBranch]
  split_ifs <;> first | rfl | (rw [stopRecorder_startedAt])

lemma noSpeechBranch_activeFalse (cfg : VadConfig) (silThr ratio : ℚ) (s : VadState)
    (now : ℚ) (hact : s.speechActive = false) :
    (noSpeechBranch cfg silThr ratio s now).1.speechActive = false := by
  simp only [noSpeechBranch, hact]
  norm_num

lemma noSpeechBranch_idle (cfg : VadConfig) (silThr ratio : ℚ) (s : VadState)
    (now : ℚ) (hact : s.speechActive = false) :
    noSpeechBranch cfg silThr ratio s now =
      ({ s with speechFrames := 0,
                backgroundNoise :=
                  min (s.backgroundNoise * 0.95 + s.smoothedEnergy * 0.05) 0.01 }, none) := by
  simp only [noSpeechBranch, hact]
  norm_num

/-- Either the non-speech branch issues no stop and leaves the recorder flag
and start timestamp alone, or it issues exactly the `silence` stop and the
recorder leaves the `'recording'` state. -/
lemma noSpeechBranch_cases (cfg : VadConfig) (silThr ratio : ℚ) (s : VadState) (now : ℚ) :
    ((noSpeechBranch cfg silThr ratio s now).2 = none ∧
      (noSpeechBranch cfg silThr ratio s now).1.recording = s.recording) ∨
    ((noSpeechBranch cfg silThr ratio s now).2 = some .silence ∧
      (noSpeechBranch cfg silThr ratio s now).1.recording = false) := by
  cases hact : s.speechActive with
  | false => left; rw [noSpeechBranch_idle cfg silThr ratio s now hact]; exact ⟨rfl, rfl⟩
  | true =>
      simp only [noSpeechBranch, hact]
      norm_num
      split
      · rename_i hcond
        right
        have hrec : s.recording = true := hcond.2.2.2.2
        unfold stopRecorder
        simp [hrec]
      · left; exact ⟨rfl, rfl⟩

lemma stopRecorder_recFalse (r : StopReason) (s : VadState) :
    (stopRecorder r s).1.recording = false := by
  unfold stopRecorder
  split <;> simp_all

lemma maxDurationCheck_noFire (cfg : VadConfig) (now : ℚ) (p : VadState × Option StopReason)
    (h : ¬(now - p.1.recordingStartedAt > cfg.maxRecordingMs)) :
    maxDurationCheck cfg now p = p := by
  unfold maxDurationCheck
  rw [if_neg]
  intro hc
  exact h hc.2.2

lemma silenceThreshold_le_dynamic (s : VadState) (hbg : 0 ≤ s.backgroundNoise) :
    silenceThresholdOf s ≤ dynamicThresholdOf s := by
  unfold silenceThresholdOf dynamicThresholdOf
  apply max_le_max
  · nlinarith
  · norm_num

lemma isSpeechLike_hasEnergy (cfg : VadConfig) (s : VadState) (f : Frame)
    (h : isSpeechLikeAt cfg s f = true) :
    smoothedAfter s f > dynamicThresholdOf s := by
  simp only [isSpeechLikeAt, Bool.and_eq_true, decide_eq_true_eq] at h
  exact h.1

/-- The non-speech branch while speech is active, written as one conditional
on the offset conditions. -/
lemma noSpeechBranch_active_eq (cfg : VadConfig) (silThr ratio : ℚ) (s : VadState)
    (now : ℚ) (hact : s.speechActive = true) :
    noSpeechBranch cfg silThr ratio s now =
      (if s.silenceTriggered = false ∧
          s.accumulatedSilence + frameDurationMs cfg ≥ cfg.silenceDurationMs ∧
          (s.smoothedEnergy < silThr ∧ ratio < 0.15) ∧
          now - s.recordingStartedAt > cfg.minRecordingMs ∧ s.recording = true then
        stopRecorder .silence
          { s with speechFrames := 0, accumulatedSilence := 0,
                   silenceTriggered := true, speechActive := false }
      else ({ s with speechFrames := 0,
                     accumulatedSilence := s.accumulatedSilence + frameDurationMs cfg },
            none)) := by
  simp only [noSpeechBranch, hact]
  norm_num

/-- The states of the hook's VAD refs reachable from the initial render via
any interleaving of analysis ticks, `start()` resets, manual stops and
`cleanup()`. -/
inductive ReachableVad : VadState → Prop
  | init : ReachableVad initialVadState
  | tick (cfg : VadConfig) (f : Frame) (now : ℚ) {s : VadState} :
      ReachableVad s → ReachableVad (detect cfg s f now).1
  | start (now : ℚ) {s : VadState} :
      ReachableVad s → ReachableVad (startResetVad s now)
  | manualStop {s : VadState} :
      ReachableVad s → ReachableVad (stopRecorder .manual s).1
  | cleanup {s : VadState} :
      ReachableVad s → ReachableVad (cleanupVad s)

lemma reachable_inv {s : VadState} (h : ReachableVad s) : VadInv s := by
  induction h with
  | init =>
      refine ⟨by norm_num [initialVadState], by norm_num [initialVadState],
        by norm_num [initialVadState], ?_⟩
      simp [initialVadState]
  | tick cfg f now _ ih => exact detect_inv _ _ _ _ ih
  | start now _ ih =>
      obtain ⟨h1, h2, _, _⟩ := ih
      refine ⟨?_, ?_, ?_, ?_⟩
      · simp only [startResetVad, lt_max_iff]
        right; norm_num
      · simp only [startResetVad]
        exact max_le h2 (by norm_num)
      · simp [startResetVad]
      · simp [startResetVad]
  | manualStop _ ih => exact stopRecorder_inv _ _ ih
  | cleanup _ ih =>
      obtain ⟨_, _, _, _⟩ := ih
      exact ⟨by norm_num [cleanupVad], by norm_num [cleanupVad],
        by norm_num [cleanupVad], by simp [cleanupVad]⟩

/-! ## The analysis tick and stop emission -/

lemma detect_vadOff (cfg : VadConfig) (s : VadState) (f : Frame) (now : ℚ)
    (h : cfg.enableVAD = false) : (detect cfg s f now).2 = none := by
  simp [detect, h]

lemma detect_max_speech (cfg : VadConfig) (s : VadState) (f : Frame) (now : ℚ)
    (hV : cfg.enableVAD = true) (hrec : s.recording = true)
    (hst : s.recordingStartedAt ≠ 0)
    (hmax : now - s.recordingStartedAt > cfg.maxRecordingMs)
    (hsl : isSpeechLikeAt cfg s f = true) :
    (detect cfg s f now).2 = some .max_duration := by
  simp only [detect, hV, hsl, if_true]
  apply maxDurationCheck_fires
  · rw [speechBranch_recording]
    exact hrec
  · rw [speechBranch_startedAt]
    exact hst
  · rw [speechBranch_startedAt]
    exact hmax
  · rfl

lemma detect_max_isSome (cfg : VadConfig) (s : VadState) (f : Frame) (now : ℚ)
    (hV : cfg.enableVAD = true) (hrec : s.recording = true)
    (hst : s.recordingStartedAt ≠ 0)
    (hmax : now - s.recordingStartedAt > cfg.maxRecordingMs) :
    ((detect cfg s f now).2).isSome = true := by
  cases hsl : isSpeechLikeAt cfg s f with
  | true => rw [detect_max_speech cfg s f now hV hrec hst hmax hsl]; rfl
  | false =>
      simp only [detect, hV, hsl, Bool.false_eq_true, if_false, if_true]
      rcases noSpeechBranch_cases cfg (silenceThresholdOf s)
          (speechRatioOf cfg.sampleRate f) { s with smoothedEnergy := smoothedAfter s f }
          now with ⟨h2, hr⟩ | ⟨h2, hr⟩
      · rw [maxDurationCheck_fires cfg now _ (by rw [hr]; exact hrec)
          (by rw [noSpeechBranch_startedAt]; exact hst)
          (by rw [noSpeechBranch_startedAt]; exact hmax) h2]
        rfl
      · rcases maxDurationCheck_snd cfg now (noSpeechBranch cfg (silenceThresholdOf s)
            (speechRatioOf cfg.sampleRate f) { s with smoothedEnergy := smoothedAfter s f }
            now) with h3 | ⟨h4, _⟩
        · rw [h3, h2]
          rfl
        · rw [h4] at h2
          cases h2

/-- C1, amended.  Part 1: with VAD enabled, a tick whose elapsed recording
time exceeds `maxRecordingMs` always issues some stop.  Part 2: if the frame
is additionally speech-like (the "continuous speech keeps `speechActive`
true" scenario), that stop has reason `max_duration`.  Part 3: with
`enableVAD = false` the `detect` tick never issues any stop — the
max-duration guard sits inside the `if (enableVAD)` block, so a disabled-VAD
recording stops only manually, not at max duration. -/
theorem max_duration_guard :
    (∀ (cfg : VadConfig) (s : VadState) (f : Frame) (now : ℚ),
        cfg.enableVAD = true → s.recording = true → s.recordingStartedAt ≠ 0 →
        now - s.recordingStartedAt > cfg.maxRecordingMs →
        ((detect cfg s f now).2).isSome = true) ∧
    (∀ (cfg : VadConfig) (s : VadState) (f : Frame) (now : ℚ),
        cfg.enableVAD = true → s.recording = true → s.recordingStartedAt ≠ 0 →
        now - s.recordingStartedAt > cfg.maxRecordingMs →
        isSpeechLikeAt cfg s f = true →
        (detect cfg s f now).2 = some .max_duration) ∧
    (∀ (cfg : VadConfig) (s : VadState) (f : Frame) (now : ℚ),
        cfg.enableVAD = false → (detect cfg s f now).2 = none) :=
  ⟨fun cfg s f now hV hrec hst hmax => detect_max_isSome cfg s f now hV hrec hst hmax,
   fun cfg s f now hV hrec hst hmax hsl => detect_max_speech cfg s f now hV hrec hst hmax hsl,
   fun cfg s f now h => detect_vadOff cfg s f now h⟩

lemma maxDurationCheck_notRecording (cfg : VadConfig) (now : ℚ)
    (p : VadState × Option StopReason) (h : p.1.recording = false) :
    maxDurationCheck cfg now p = p := by
  unfold maxDurationCheck
  rw [if_neg]
  intro hc
  rw [h] at hc
  cases hc.1

lemma maxDurationCheck_ne_silence (cfg : VadConfig) (now : ℚ)
    (p : VadState × Option StopReason) (h : p.2 = none) :
    (maxDurationCheck cfg now p).2 ≠ some .silence := by
  rcases maxDurationCheck_snd cfg now p with h3 | ⟨_, h4⟩
  · rw [h3, h]
    simp
  · rw [h4]
    simp

/-- C2, part 1 helper: the exact offset-condition characterization of the
`silence` stop on one tick from an Active state with no pending trigger. -/
lemma silence_stop_characterization (cfg : VadConfig) (s : VadState) (f : Frame) (now : ℚ)
    (hV : cfg.enableVAD = true) (hA : s.speechActive = true)
    (hT : s.silenceTriggered = false) (hbg : 0 ≤ s.backgroundNoise) :
    ((detect cfg s f now).2 = some .silence ↔
      (s.accumulatedSilence + frameDurationMs cfg ≥ cfg.silenceDurationMs ∧
        (smoothedAfter s f < silenceThresholdOf s ∧
          speechRatioOf cfg.sampleRate f < 0.15) ∧
        now - s.recordingStartedAt > cfg.minRecordingMs ∧
        s.recording = true)) := by
  cases hsl : isSpeechLikeAt cfg s f with
  | true =>
      have hen := isSpeechLike_hasEnergy cfg s f hsl
      have hthr := silenceThreshold_le_dynamic s hbg
      apply iff_of_false
      · simp only [detect, hV, hsl, if_true]
        exact maxDurationCheck_ne_silence cfg now _ rfl
      · intro ⟨_, ⟨hlow, _⟩, _, _⟩
        have hlt : dynamicThresholdOf s < silenceThresholdOf s := lt_trans hen hlow
        exact absurd hthr (not_le.mpr hlt)
  | false =>
      simp only [detect, hV, hsl, Bool.false_eq_true, if_false, if_true]
      rw [noSpeechBranch_active_eq cfg (silenceThresholdOf s)
        (speechRatioOf cfg.sampleRate f) { s with smoothedEnergy := smoothedAfter s f }
        now hA]
      split
      · rename_i hc
        have hrec : s.recording = true := hc.2.2.2.2
        have hem := stopRecorder_emits StopReason.silence
          { { s with smoothedEnergy := smoothedAfter s f } with
            speechFrames := 0, accumulatedSilence := 0,
            silenceTriggered := true, speechActive := false } hrec
        have hnr := stopRecorder_recFalse StopReason.silence
          { { s with smoothedEnergy := smoothedAfter s f } with
            speechFrames := 0, accumulatedSilence := 0,
            silenceTriggered := true, speechActive := false }
        rw [maxDurationCheck_notRecording cfg now _ hnr]
        exact iff_of_true hem ⟨hc.2.1, hc.2.2.1, hc.2.2.2.1, hrec⟩
      · rename_i hc
        apply iff_of_false
        · exact maxDurationCheck_ne_silence cfg now _ rfl
        · intro hcond
          exact hc ⟨hT, hcond.1, hcond.2.1, hcond.2.2.1, hcond.2.2.2⟩

/-- With the minimum-recording condition removed (elapsed ≤ `minRecordingMs`)
and a sane configuration (`minRecordingMs ≤ maxRecordingMs`), an Active tick
issues no stop at all, whatever the other offset conditions. -/
lemma detect_no_stop_below_min (cfg : VadConfig) (s : VadState) (f : Frame) (now : ℚ)
    (hV : cfg.enableVAD = true) (hA : s.speechActive = true)
    (hminmax : cfg.minRecordingMs ≤ cfg.maxRecordingMs)
    (hnmin : ¬(now - s.recordingStartedAt > cfg.minRecordingMs)) :
    (detect cfg s f now).2 = none := by
  have hnmax : ¬(now - s.recordingStartedAt > cfg.maxRecordingMs) :=
    fun h => hnmin (lt_of_le_of_lt hminmax h)
  cases hsl : isSpeechLikeAt cfg s f with
  | true =>
      simp only [detect, hV, hsl, if_true]
      rw [maxDurationCheck_noFire cfg now _ (by rw [speechBranch_startedAt]; exact hnmax)]
  | false =>
      simp only [detect, hV, hsl, Bool.false_eq_true, if_false, if_true]
      rw [noSpeechBranch_active_eq cfg (silenceThresholdOf s)
        (speechRatioOf cfg.sampleRate f) { s with smoothedEnergy := smoothedAfter s f }
        now hA]
      rw [if_neg (fun hc => hnmin hc.2.2.2.1)]
      rw [maxDurationCheck_noFire cfg now _ hnmax]

/-- C2: while Active, a `silence` stop is issued on a tick exactly when the
four offset conditions hold simultaneously (elapsed silence past the grace
period after this frame's accumulation, smoothed energy below the silence
threshold together with speech ratio below 0.15, elapsed recording time
strictly over the minimum, and the recorder still `'recording'`).  The
hypotheses `silenceTriggered = false` and `0 ≤ backgroundNoise` hold in every
reachable Active state (part 2).  Part 3: dropping just the
minimum-duration condition suppresses any stop. -/
theorem silence_offset_iff :
    (∀ (cfg : VadConfig) (s : VadState) (f : Frame) (now : ℚ),
        cfg.enableVAD = true → s.speechActive = true → s.silenceTriggered = false →
        0 ≤ s.backgroundNoise →
        ((detect cfg s f now).2 = some .silence ↔
          (s.accumulatedSilence + frameDurationMs cfg ≥ cfg.silenceDurationMs ∧
            (smoothedAfter s f < silenceThresholdOf s ∧
              speechRatioOf cfg.sampleRate f < 0.15) ∧
            now - s.recordingStartedAt > cfg.minRecordingMs ∧
            s.recording = true))) ∧
    (∀ s : VadState, ReachableVad s → s.speechActive = true →
        s.silenceTriggered = false ∧ 0 ≤ s.backgroundNoise) ∧
    (∀ (cfg : VadConfig) (s : VadState) (f : Frame) (now : ℚ),
        cfg.enableVAD = true → s.speechActive = true →
        cfg.minRecordingMs ≤ cfg.maxRecordingMs →
        ¬(now - s.recordingStartedAt > cfg.minRecordingMs) →
        (detect cfg s f now).2 = none) := by
  refine ⟨fun cfg s f now hV hA hT hbg =>
      silence_stop_characterization cfg s f now hV hA hT hbg, ?_, ?_⟩
  · intro s hreach hA
    have hinv := reachable_inv hreach
    exact ⟨hinv.2.2.2 hA, le_of_lt hinv.1⟩
  · intro cfg s f now hV hA hminmax hnmin
    exact detect_no_stop_below_min cfg s f now hV hA hminmax hnmin

/-! ## Multi-tick runs of the analysis loop (onset debounce) -/

/-- Run the `detect` loop over a sequence of (frame, timestamp) inputs. -/
def runTicks (cfg : VadConfig) : VadState → List (Frame × ℚ) → VadState
  | s, [] => s
  | s, (f, now) :: rest => runTicks cfg (detect cfg s f now).1 rest

/-- The per-tick `isSpeechLike` classifications produced along a run. -/
def classTrace (cfg : VadConfig) : VadState → List (Frame × ℚ) → List Bool
  | _, [] => []
  | s, (f, now) :: rest =>
      isSpeechLikeAt cfg s f :: classTrace cfg (detect cfg s f now).1 rest

/-- Length of the leading run of `true`s. -/
def leadingTrues : List Bool → ℕ
  | [] => 0
  | b :: rest => if b then leadingTrues rest + 1 else 0

/-- Length of the trailing run of `true`s. -/
def trailingTrues (l : List Bool) : ℕ := leadingTrues l.reverse

/-- The trace contains (at least) three consecutive `true` classifications. -/
def ThreeConsecutive (trace : List Bool) : Prop :=
  ∃ u v, trace = u ++ true :: true :: true :: v

lemma threeConsecutive_append_right (t m : List Bool) (h : ThreeConsecutive t) :
    ThreeConsecutive (t ++ m) := by
  obtain ⟨u, v, huv⟩ := h
  exact ⟨u, v ++ m, by rw [huv]; simp⟩

lemma trailingTrues_snoc (t : List Bool) (b : Bool) :
    trailingTrues (t ++ [b]) = if b then trailingTrues t + 1 else 0 := by
  unfold trailingTrues
  rw [List.reverse_append]
  cases b <;> simp [leadingTrues]

lemma threeConsecutive_of_trailing (t : List Bool) (h : 3 ≤ trailingTrues t) :
    ThreeConsecutive t := by
  unfold trailingTrues at h
  obtain ⟨r, hr⟩ : ∃ r, t.reverse = true :: true :: true :: r := by
    cases h1 : t.reverse with
    | nil => rw [h1] at h; simp [leadingTrues] at h
    | cons b1 t1 =>
      cases b1
      · rw [h1] at h; simp [leadingTrues] at h
      · cases h2 : t1 with
        | nil => rw [h1, h2] at h; simp [leadingTrues] at h
        | cons b2 t2 =>
          cases b2
          · rw [h1, h2] at h; simp [leadingTrues] at h
          · cases h3 : t2 with
            | nil => rw [h1, h2, h3] at h; simp [leadingTrues] at h
            | cons b3 t3 =>
              cases b3
              · rw [h1, h2, h3] at h; simp [leadingTrues] at h
              · exact ⟨t3, rfl⟩

  refine ⟨r.reverse, [], ?_⟩
  have hrr : t = t.reverse.reverse := (List.reverse_reverse t).symm
  rw [hrr, hr]
  simp

lemma detect_frames_eq (cfg : VadConfig) (s : VadState) (f : Frame) (now : ℚ)
    (hV : cfg.enableVAD = true) :
    (detect cfg s f now).1.speechFrames =
      if isSpeechLikeAt cfg s f then s.speechFrames + 1 else 0 := by
  cases hsl : isSpeechLikeAt cfg s f with
  | true =>
      simp only [detect, hV, hsl, if_true]
      rw [maxDurationCheck_frames, speechBranch_frames]
  | false =>
      simp only [detect, hV, hsl, Bool.false_eq_true, if_false, if_true]
      rw [maxDurationCheck_frames, noSpeechBranch_frames]

lemma detect_inactive_step (cfg : VadConfig) (s : VadState) (f : Frame) (now : ℚ)
    (hV : cfg.enableVAD = true) (hact : s.speechActive = false)
    (h : isSpeechLikeAt cfg s f = false ∨ s.speechFrames + 1 < 3) :
    (detect cfg s f now).1.speechActive = false := by
  cases hsl : isSpeechLikeAt cfg s f with
  | true =>
      have hlt : s.speechFrames + 1 < 3 := by
        rcases h with h | h
        · rw [hsl] at h; cases h
        · exact h
      simp only [detect, hV, hsl, if_true]
      apply maxDurationCheck_activeFalse
      exact speechBranch_inactive _ now hact hlt
  | false =>
      simp only [detect, hV, hsl, Bool.false_eq_true, if_false, if_true]
      apply maxDurationCheck_activeFalse
      exact noSpeechBranch_activeFalse _ _ _ _ now hact

/-- Along any run that starts Idle with a zeroed consecutive-frame counter,
if the classification trace (extended by a virtual prefix `tr` matching the
counter) never contains three consecutive speech-like ticks, the machine
never activates, and the counter always equals the trailing run of
speech-like ticks. -/
lemma run_no_activation (cfg : VadConfig) (hV : cfg.enableVAD = true) :
    ∀ (l : List (Frame × ℚ)) (s : VadState) (tr : List Bool),
      s.speechActive = false →
      s.speechFrames = trailingTrues tr →
      ¬ ThreeConsecutive (tr ++ classTrace cfg s l) →
      (runTicks cfg s l).speechActive = false ∧
      (runTicks cfg s l).speechFrames = trailingTrues (tr ++ classTrace cfg s l) := by
  intro l
  induction l with
  | nil =>
      intro s tr h1 h2 _
      simp only [runTicks, classTrace, List.append_nil]
      exact ⟨h1, h2⟩
  | cons p rest ih =>
      obtain ⟨f, now⟩ := p
      intro s tr h1 h2 h3
      have hcl : classTrace cfg s ((f, now) :: rest) =
          isSpeechLikeAt cfg s f :: classTrace cfg (detect cfg s f now).1 rest := rfl
      have hrun : runTicks cfg s ((f, now) :: rest) =
          runTicks cfg (detect cfg s f now).1 rest := rfl
      have hassoc : tr ++ isSpeechLikeAt cfg s f ::
            classTrace cfg (detect cfg s f now).1 rest =
          (tr ++ [isSpeechLikeAt cfg s f]) ++
            classTrace cfg (detect cfg s f now).1 rest := by
        simp
      rw [hcl, hassoc] at h3
      rw [hcl, hrun, hassoc]
      cases hsl : isSpeechLikeAt cfg s f with
      | true =>
          rw [hsl] at h3
          have hlt : s.speechFrames + 1 < 3 := by
            by_contra hge
            push_neg at hge
            apply h3
            apply threeConsecutive_append_right
            apply threeConsecutive_of_trailing
            rw [trailingTrues_snoc]
            simp only [if_true]
            rw [← h2]
            omega
          have hact2 : (detect cfg s f now).1.speechActive = false :=
            detect_inactive_step cfg s f now hV h1 (Or.inr hlt)
          have hfr2 : (detect cfg s f now).1.speechFrames =
              trailingTrues (tr ++ [true]) := by
            rw [detect_frames_eq cfg s f now hV, hsl, trailingTrues_snoc]
            simp only [if_true]
            rw [h2]
          exact ih (detect cfg s f now).1 (tr ++ [true]) hact2 hfr2 h3
      | false =>
          rw [hsl] at h3
          have hact2 : (detect cfg s f now).1.speechActive = false :=
            detect_inactive_step cfg s f now hV h1 (Or.inl hsl)
          have hfr2 : (detect cfg s f now).1.speechFrames =
              trailingTrues (tr ++ [false]) := by
            rw [detect_frames_eq cfg s f now hV, hsl, trailingTrues_snoc]
            simp
          exact ih (detect cfg s f now).1 (tr ++ [false]) hact2 hfr2 h3

lemma active_speech_resets (cfg : VadConfig) (s : VadState) (f : Frame) (now : ℚ)
    (hV : cfg.enableVAD = true) (hact : s.speechActive = true)
    (hsl : isSpeechLikeAt cfg s f = true) :
    (detect cfg s f now).1.accumulatedSilence = 0 ∧
    (detect cfg s f now).1.silenceTriggered = false := by
  simp only [detect, hV, hsl, if_true]
  constructor
  · rw [maxDurationCheck_acc,
      speechBranch_active { s with smoothedEnergy := smoothedAfter s f } now hact]
  · apply maxDurationCheck_trigFalse
    rw [speechBranch_active { s with smoothedEnergy := smoothedAfter s f } now hact]

/-- C3: (1) starting Idle with a zeroed counter, the machine never reaches
`speechActive = true` unless the classification trace of the run contains
three consecutive speech-like ticks; (2) a single isolated speech-like frame
followed by a non-speech frame leaves the machine Idle with the counter reset
to 0; (3) once Active, any further speech-like frame resets
`accumulatedSilenceMs` to 0 and clears the pending silence trigger. -/
theorem onset_debounce :
    (∀ (cfg : VadConfig) (s : VadState) (l : List (Frame × ℚ)),
        cfg.enableVAD = true → s.speechActive = false → s.speechFrames = 0 →
        ¬ ThreeConsecutive (classTrace cfg s l) →
        (runTicks cfg s l).speechActive = false) ∧
    (∀ (cfg : VadConfig) (s : VadState) (f1 f2 : Frame) (n1 n2 : ℚ),
        cfg.enableVAD = true → s.speechActive = false → s.speechFrames = 0 →
        isSpeechLikeAt cfg s f1 = true →
        isSpeechLikeAt cfg (detect cfg s f1 n1).1 f2 = false →
        ((detect cfg (detect cfg s f1 n1).1 f2 n2).1.speechActive = false ∧
          (detect cfg (detect cfg s f1 n1).1 f2 n2).1.speechFrames = 0)) ∧
    (∀ (cfg : VadConfig) (s : VadState) (f : Frame) (now : ℚ),
        cfg.enableVAD = true → s.speechActive = true → isSpeechLikeAt cfg s f = true →
        ((detect cfg s f now).1.accumulatedSilence = 0 ∧
          (detect cfg s f now).1.silenceTriggered = false)) := by
  refine ⟨?_, ?_, ?_⟩
  · intro cfg s l hV hact hfr hnC
    have h2 : s.speechFrames = trailingTrues [] := by
      rw [hfr]
      rfl
    have h3 : ¬ ThreeConsecutive ([] ++ classTrace cfg s l) := by
      simpa using hnC
    exact (run_no_activation cfg hV l s [] hact h2 h3).1
  · intro cfg s f1 f2 n1 n2 hV hact hfr _ hsl2
    have h1act : (detect cfg s f1 n1).1.speechActive = false :=
      detect_inactive_step cfg s f1 n1 hV hact (Or.inr (by rw [hfr]; norm_num))
    refine ⟨detect_inactive_step cfg _ f2 n2 hV h1act (Or.inl hsl2), ?_⟩
    rw [detect_frames_eq cfg _ f2 n2 hV, hsl2]
    simp
  · intro cfg s f now hV hact hsl
    exact active_speech_resets cfg s f now hV hact hsl

/-- C6: in every reachable state of the noise model the background-noise
estimate is strictly positive and at most the speech-adaptation ceiling
0.015; and whenever the idle (non-speech, speech-inactive) update runs, the
estimate additionally ends the tick clamped to 0.01. -/
theorem background_noise_bounds :
    (∀ s : VadState, ReachableVad s →
        0 < s.backgroundNoise ∧ s.backgroundNoise ≤ 0.015) ∧
    (∀ (cfg : VadConfig) (s : VadState) (f : Frame) (now : ℚ),
        cfg.enableVAD = true → isSpeechLikeAt cfg s f = false →
        s.speechActive = false →
        (detect cfg s f now).1.backgroundNoise ≤ 0.01) := by
  constructor
  · intro s h
    have hinv := reachable_inv h
    exact ⟨hinv.1, hinv.2.1⟩
  · intro cfg s f now hV hsl hact
    simp only [detect, hV, hsl, Bool.false_eq_true, if_false, if_true]
    rw [maxDurationCheck_bg]
    rw [noSpeechBranch_idle cfg (silenceThresholdOf s) (speechRatioOf cfg.sampleRate f)
      { s with smoothedEnergy := smoothedAfter s f } now hact]
    exact min_le_right _ _

/-! ## Degenerate all-zero frames (analyzer safety) -/

/-- A frame whose time-domain window and frequency magnitudes are all zero. -/
def zeroFrame (n m : ℕ) : Frame :=
  { timeDomain := List.replicate n 0, freq := List.replicate m 0 }

lemma sumSquares_replicate_zero (n : ℕ) : sumSquares (List.replicate n 0) = 0 := by
  have key : ∀ (k : ℕ) (a : ℚ),
      List.foldl (fun acc sample => acc + sample * sample) a (List.replicate k 0) = a := by
    intro k
    induction k with
    | zero => intro a; rfl
    | succ j ih =>
        intro a
        rw [List.replicate_succ, List.foldl_cons]
        rw [show a + (0:ℚ) * 0 = a by ring]
        exact ih a
  exact key n 0

lemma rmsOf_replicate_zero (n : ℕ) : rmsOf (List.replicate n 0) = 0 := by
  unfold rmsOf
  rw [sumSquares_replicate_zero, zero_div]
  exact ratSqrt_zero

lemma zeroCrossings_replicate_zero (n : ℕ) :
    zeroCrossings (List.replicate n 0) = 0 := by
  induction n with
  | zero => rfl
  | succ m ih =>
      cases m with
      | zero => rfl
      | succ k =>
          rw [show List.replicate (k + 2) (0:ℚ) = 0 :: 0 :: List.replicate k 0 from rfl]
          have hstep : zeroCrossings ((0:ℚ) :: 0 :: List.replicate k 0) =
              zeroCrossings ((0:ℚ) :: List.replicate k 0) := by
            simp only [zeroCrossings]
            norm_num
          rw [hstep]
          exact ih

lemma zcrOf_replicate_zero (n : ℕ) : zcrOf (List.replicate n 0) = 0 := by
  unfold zcrOf
  rw [zeroCrossings_replicate_zero]
  norm_num

lemma totalEnergyOf_zeroFrame (n m : ℕ) : totalEnergyOf (zeroFrame n m) = 0 := by
  unfold totalEnergyOf zeroFrame
  rw [List.map_replicate]
  rw [List.sum_replicate]
  norm_num

lemma speechRatioOf_total_zero (sampleRate : ℚ) (f : Frame)
    (h : totalEnergyOf f = 0) : speechRatioOf sampleRate f = 0 := by
  unfold speechRatioOf
  rw [h]
  norm_num

lemma isSpeechLike_zeroFrame (cfg : VadConfig) (s : VadState) (n m : ℕ) :
    isSpeechLikeAt cfg s (zeroFrame n m) = false := by
  unfold isSpeechLikeAt
  rw [speechRatioOf_total_zero cfg.sampleRate (zeroFrame n m)
    (totalEnergyOf_zeroFrame n m)]
  rw [show (zeroFrame n m).timeDomain = List.replicate n 0 from rfl]
  rw [zcrOf_replicate_zero]
  norm_num

/-- C7: an all-zero analysis frame yields `rms = 0` (no NaN); a zero total
spectral energy yields a speech-band ratio of 0 (no division by zero); and on
all-zero frames `isSpeechLike` is false in every state, whatever smoothed
energy is carried over. -/
theorem silent_frame_safety :
    (∀ n : ℕ, rmsOf (List.replicate n 0) = 0) ∧
    (∀ (sampleRate : ℚ) (f : Frame),
        totalEnergyOf f = 0 → speechRatioOf sampleRate f = 0) ∧
    (∀ (cfg : VadConfig) (s : VadState) (n m : ℕ),
        isSpeechLikeAt cfg s (zeroFrame n m) = false) :=
  ⟨rmsOf_replicate_zero,
   fun sampleRate f h => speechRatioOf_total_zero sampleRate f h,
   fun cfg s n m => isSpeechLike_zeroFrame cfg s n m⟩

/-! ## Conversation pruning -/

/-- Total estimated token cost of a list of turns. -/
def tokSum (l : List ConversationTurn) : ℕ :=
  (l.map fun t => estimateTokens t.content).sum

lemma tokSum_reverse (l : List ConversationTurn) : tokSum l.reverse = tokSum l := by
  unfold tokSum
  rw [List.map_reverse, List.sum_reverse]

/-- Full functional characterization of the pruning loop: it keeps a prefix
of the reversed history (`m` newest turns), keeps at least two entries
whenever that many are available, and keeps a turn beyond the newest two only
when the running budget stayed nonnegative through it. -/
lemma pruneAux_spec (rev : List ConversationTurn) :
    ∀ (avail : ℤ) (acc : List ConversationTurn),
      ∃ m, m ≤ rev.length ∧
        pruneAux rev avail acc = (rev.take m).reverse ++ acc ∧
        (2 ≤ acc.length + rev.length → 2 ≤ acc.length + m) ∧
        (∀ i, i < m → 2 ≤ acc.length + i →
          0 ≤ avail - (tokSum (rev.take (i + 1)) : ℤ)) := by
  induction rev with
  | nil =>
      intro avail acc
      refine ⟨0, le_refl 0, by simp [pruneAux], by simp, ?_⟩
      intro i hi
      exact absurd hi (by omega)
  | cons turn rest ih =>
      intro avail acc
      by_cases hbr : avail - (estimateTokens turn.content : ℤ) < 0 ∧ 2 ≤ acc.length
      · refine ⟨0, by simp, by simp [pruneAux, hbr], ?_, ?_⟩
        · intro _
          omega
        · intro i hi
          exact absurd hi (by omega)
      · obtain ⟨m, hm, heq, hlen, hfit⟩ :=
          ih (avail - (estimateTokens turn.content : ℤ)) (turn :: acc)
        have hstep : pruneAux (turn :: rest) avail acc =
            pruneAux rest (avail - (estimateTokens turn.content : ℤ)) (turn :: acc) := by
          simp only [pruneAux]
          rw [if_neg hbr]
        refine ⟨m + 1, by simp only [List.length_cons]; omega, ?_, ?_, ?_⟩
        · rw [hstep, heq, List.take_succ_cons, List.reverse_cons, List.append_assoc]
          rfl
        · intro hlen2
          have h2 := hlen (by simp only [List.length_cons] at hlen2 ⊢; omega)
          simp only [List.length_cons] at h2
          omega
        · intro i hi hacc
          cases i with
          | zero =>
              have hge : ¬(avail - (estimateTokens turn.content : ℤ) < 0) := by
                intro hneg
                exact hbr ⟨hneg, by omega⟩
              have hts : tokSum ((turn :: rest).take 1) = estimateTokens turn.content := by
                simp [tokSum]
              rw [hts]
              omega
          | succ j =>
              have hfit2 := hfit j (by omega)
                (by simp only [List.length_cons]; omega)
              have hts : tokSum ((turn :: rest).take (j + 2)) =
                  estimateTokens turn.content + tokSum (rest.take (j + 1)) := by
                simp [tokSum]
              rw [hts]
              push_cast at hfit2 ⊢
              omega

/-- C4: `pruneConversationForContext` returns a contiguous suffix
`history.drop k` of the history; with at least two turns in the history the
result keeps at least the two most recent turns whatever the budget; and any
older turn is kept only if the whole suffix from it onward fits the budget
remaining after the system prompt's tokens and the 1024-token reply reserve. -/
theorem prune_keeps_recent_turns (history : List ConversationTurn)
    (maxContextTokens : ℤ) :
    ∃ k, k ≤ history.length ∧
      pruneConversationForContext history maxContextTokens = history.drop k ∧
      (2 ≤ history.length →
        2 ≤ (pruneConversationForContext history maxContextTokens).length) ∧
      (∀ j, k ≤ j → j + 2 < history.length →
        0 ≤ maxContextTokens - (estimateTokens SYSTEM_PROMPT : ℤ) - 1024 -
          (tokSum (history.drop j) : ℤ)) := by
  obtain ⟨m, hm, heq, hlen, hfit⟩ :=
    pruneAux_spec history.reverse
      (maxContextTokens - (estimateTokens SYSTEM_PROMPT : ℤ) - 1024) []
  rw [List.length_reverse] at hm
  have hres : pruneConversationForContext history maxContextTokens =
      history.drop (history.length - m) := by
    unfold pruneConversationForContext
    rw [heq, List.append_nil, List.take_reverse, List.reverse_reverse]
  refine ⟨history.length - m, by omega, hres, ?_, ?_⟩
  · intro h2
    have hpre : 2 ≤ ([] : List ConversationTurn).length + history.reverse.length := by
      simp only [List.length_nil, List.length_reverse]
      omega
    have h3 := hlen hpre
    simp only [List.length_nil, Nat.zero_add] at h3
    rw [hres, List.length_drop]
    omega
  · intro j hj hj2
    have hi : history.length - 1 - j < m := by omega
    have hacc : 2 ≤ (([] : List ConversationTurn)).length + (history.length - 1 - j) := by
      rw [List.length_nil]
      omega
    have hfit2 := hfit (history.length - 1 - j) hi hacc
    have hidx : history.length - 1 - j + 1 = history.length - j := by omega
    rw [hidx] at hfit2
    have hts : tokSum (history.reverse.take (history.length - j)) =
        tokSum (history.drop j) := by
      rw [List.take_reverse, tokSum_reverse]
      have : history.length - (history.length - j) = j := by omega
      rw [this]
    rw [hts] at hfit2
    omega

/-! ## Transcript filtering and deduplication -/

/-- C5: in continuous session mode, when the sanitized transcript of a new
utterance (which passes the empty/sentinel gates) exactly equals the
previously processed sanitized utterance stored in `lastUtteranceRef`, the
handler returns with the state unchanged apart from the cleared banners:
`processMessage` is not reached (second component `none`), so no user turn is
appended, no generation or synthesis runs, and the conversation history,
`lastUtteranceRef` and the detected-utterance list are untouched. -/
theorem duplicate_utterance_skipped (s : OrchestratorState) (text : List Char)
    (h1 : (trimChars text).length ≠ 0)
    (h2 : matchesBlankAudioPattern (trimChars text) = false)
    (h3 : (trimChars (stripBlankAudio (trimChars text))).length ≠ 0)
    (h4 : trimChars (stripBlankAudio (trimChars text)) = s.lastUtterance) :
    handleRecordingComplete true s (some text) =
      ({ s with alert := none, voiceSessionError := none }, none) := by
  show handleTranscript true { s with alert := none, voiceSessionError := none } text = _
  simp only [handleTranscript]
  rw [if_neg h1]
  rw [if_neg (show ¬(matchesBlankAudioPattern (trimChars text) = true) by simp [h2])]
  rw [if_neg h3]
  rw [if_pos (⟨trivial, h4⟩ :
    True ∧ trimChars (stripBlankAudio (trimChars text)) = s.lastUtterance)]

/-- C8: an empty/whitespace-only transcript, a transcript matching the
`BLANK_AUDIO` pattern, or one that becomes empty after stripping all sentinel
occurrences, is filtered out: `processMessage` is not reached, the
conversation history and `lastUtteranceRef` are unchanged, and in continuous
session mode only the recoverable `voiceSessionError` status is surfaced. -/
theorem empty_or_sentinel_filtered (sessionActive : Bool) (s : OrchestratorState)
    (text : List Char)
    (h : (trimChars text).length = 0 ∨
      matchesBlankAudioPattern (trimChars text) = true ∨
      (trimChars (stripBlankAudio (trimChars text))).length = 0) :
    ((handleRecordingComplete sessionActive s (some text)).2 = none ∧
      (handleRecordingComplete sessionActive s (some text)).1.turns = s.turns ∧
      (handleRecordingComplete sessionActive s (some text)).1.lastUtterance =
        s.lastUtterance ∧
      (sessionActive = true →
        ((handleRecordingComplete sessionActive s
          (some text)).1.voiceSessionError).isSome = true)) := by
  cases hs : sessionActive with
  | true =>
      by_cases h1 : (trimChars text).length = 0
      · simp [handleRecordingComplete, handleTranscript, h1]
      · cases h2 : matchesBlankAudioPattern (trimChars text) with
        | true => simp [handleRecordingComplete, handleTranscript, h1, h2]
        | false =>
            have h3 : (trimChars (stripBlankAudio (trimChars text))).length = 0 := by
              rcases h with h | h | h
              · exact absurd h h1
              · rw [h2] at h; cases h
              · exact h
            simp [handleRecordingComplete, handleTranscript, h1, h2, h3]
  | false =>
      by_cases h1 : (trimChars text).length = 0
      · simp [handleRecordingComplete, handleTranscript, h1]
      · cases h2 : matchesBlankAudioPattern (trimChars text) with
        | true => simp [handleRecordingComplete, handleTranscript, h1, h2]
        | false =>
            have h3 : (trimChars (stripBlankAudio (trimChars text))).length = 0 := by
              rcases h with h | h | h
              · exact absurd h h1
              · rw [h2] at h; cases h
              · exact h
            simp [handleRecordingComplete, handleTranscript, h1, h2, h3]

/-! ## Recorder start idempotence and the stop event -/

/-- C9: calling `start()` while the recorder is already `'recording'` (with
the stream, analyser and recorder in place from the first call) performs no
external acquisition at all — no `getUserMedia`, no analyser setup, no
`MediaRecorder` construction, no `recorder.start()` — and leaves the entire
state unchanged except that `recorderError` is (re)cleared; in particular the
chunk buffer survives and exactly the one existing recording stays active.
Part 2: a `start()` with codec support and granted permission always ends
with the recorder in the `'recording'` state. -/
theorem start_idempotent :
    (∀ (g : Bool) (m : RecorderModel) (now : ℚ),
        m.hasStream = true → m.hasAnalyser = true → m.hasRecorder = true →
        m.vad.recording = true →
        startRecorder true g m now = ({ m with recorderError := none }, [])) ∧
    (∀ (m : RecorderModel) (now : ℚ),
        (startRecorder true true m now).1.vad.recording = true) := by
  constructor
  · intro g m now hstream hana hrec hrecording
    simp [startRecorder, hstream, hana, hrec, hrecording]
  · intro m now
    cases h1 : m.hasStream <;> cases h2 : m.hasAnalyser <;> cases h3 : m.hasRecorder <;>
      simp [startRecorder, h1, h2, h3, startResetVad] <;>
      (try split) <;> simp_all [startResetVad]

lemma foldl_dataAvailable (ds : List (List ℕ)) :
    ∀ acc, ds.foldl dataAvailable acc =
      acc ++ ds.filter fun d => decide (0 < d.length) := by
  induction ds with
  | nil => intro acc; simp
  | cons d rest ih =>
      intro acc
      rw [List.foldl_cons, ih]
      by_cases hd : 0 < d.length
      · rw [List.filter_cons_of_pos (by simpa using hd)]
        simp [dataAvailable, hd]
      · rw [List.filter_cons_of_neg (by simpa using hd)]
        simp [dataAvailable, hd]

lemma filter_nonempty_flatten (ds : List (List ℕ)) :
    (ds.filter fun d => decide (0 < d.length)).flatten = ds.flatten := by
  induction ds with
  | nil => rfl
  | cons d rest ih =>
      by_cases hd : 0 < d.length
      · rw [List.filter_cons_of_pos (by simpa using hd)]
        simp [ih]
      · rw [List.filter_cons_of_neg (by simpa using hd)]
        have hnil : d = [] := by
          cases d
          · rfl
          · exact absurd (by simp) hd
        simp [hnil, ih]

lemma filter_nonempty_eq_nil_iff (ds : List (List ℕ)) :
    ((ds.filter fun d => decide (0 < d.length)) = [] ↔ ds.flatten = []) := by
  induction ds with
  | nil => simp
  | cons d rest ih =>
      by_cases hd : 0 < d.length
      · rw [List.filter_cons_of_pos (by simpa using hd)]
        constructor
        · intro hc; cases hc
        · intro hfl
          simp only [List.flatten_cons, List.append_eq_nil] at hfl
          rw [hfl.1] at hd
          simp at hd
      · rw [List.filter_cons_of_neg (by simpa using hd)]
        have hnil : d = [] := by
          cases d
          · rfl
          · exact absurd (by simp) hd
        simp [hnil, ih]

/-- C10: the stop-event handler never invokes `onRecordingComplete` for a
manual stop and discards the buffered chunks; for a `silence` or
`max_duration` stop it invokes the callback with the concatenation, in
arrival order, of every chunk the `dataavailable` handler accumulated, or
with `null` when zero bytes were captured. -/
theorem stop_event_callback :
    (∀ chunks : List (List ℕ),
        handleStopEvent .manual chunks =
          { chunks := [], stopReason := .manual, isRecordingFlag := false,
            callback := none }) ∧
    (∀ (reason : StopReason) (ds : List (List ℕ)),
        reason = .silence ∨ reason = .max_duration →
        handleStopEvent reason (ds.foldl dataAvailable []) =
          { chunks := [], stopReason := .manual, isRecordingFlag := false,
            callback :=
              some (if ds.flatten = [] then none else some ds.flatten) }) := by
  constructor
  · intro chunks
    simp [handleStopEvent]
  · intro reason ds hr
    have hchunks : ds.foldl dataAvailable [] =
        ds.filter fun d => decide (0 < d.length) := by
      rw [foldl_dataAvailable ds []]
      rfl
    have hproc : (reason = StopReason.silence ∨ reason = StopReason.max_duration) := hr
    simp only [handleStopEvent]
    rw [if_neg (not_not_intro hproc)]
    rw [hchunks]
    by_cases hfl : ds.flatten = []
    · have hnil : (ds.filter fun d => decide (0 < d.length)) = [] :=
        (filter_nonempty_eq_nil_iff ds).mpr hfl
      simp [hnil, hfl]
    · have hne : (ds.filter fun d => decide (0 < d.length)) ≠ [] := by
        intro hc
        exact hfl ((filter_nonempty_eq_nil_iff ds).mp hc)
      have hlen : 0 < (ds.filter fun d => decide (0 < d.length)).length :=
        List.length_pos.mpr hne
      simp [hfl, hlen, filter_nonempty_flatten]

/-! ## Concrete instances -/

/-- A strongly speech-like frame: rms 1, one sign change in four samples
(zcr 0.25, inside the 0.02-0.4 band). -/
def speechFrame : Frame := { timeDomain := [1, 1, 1, -1], freq := [] }

/-- A fully silent frame. -/
def silentFrame : Frame := { timeDomain := [], freq := [] }

/-- A recorder 20 s into a recording that started at t = 1 ms. -/
def recAt1 : VadState :=
  { initialVadState with recording := true, recordingStartedAt := 1 }

/-- The default configuration with VAD disabled. -/
def cfgVadOff : VadConfig := { defaultVadConfig with enableVAD := false }

/-- An Active recording whose silence accumulator already reached the grace
period. -/
def activeQuiet : VadState :=
  { initialVadState with speechActive := true, recording := true,
                         recordingStartedAt := 1, accumulatedSilence := 900 }

lemma isSpeechLike_speechFrame (s : VadState) (hsm : s.smoothedEnergy = 0)
    (hbg : s.backgroundNoise = 0.0004) :
    isSpeechLikeAt defaultVadConfig s speechFrame = true := by
  norm_num [isSpeechLikeAt, defaultVadConfig, speechFrame, smoothedAfter, rmsOf,
    sumSquares, zcrOf, zeroCrossings, dynamicThresholdOf, speechRatioOf,
    totalEnergyOf, ratSqrt_one, hsm, hbg]

/-- C1 counterexample: with `enableVAD = false`, a tick 20 s into a recording
(`maxRecordingMs` = 15000 ms) fed a strong speech-like frame issues no stop
whatsoever — the max-duration guard sits inside the `if (enableVAD)` block,
so the claimed `max_duration` stop is not issued. -/
theorem max_duration_vadOff_counterexample :
    (detect cfgVadOff recAt1 speechFrame 20000).2 = none := by
  simp [detect, cfgVadOff, defaultVadConfig]

/-- Witness for C1. -/
theorem max_duration_guard_witness :
    ((detect defaultVadConfig recAt1 speechFrame 20000).2).isSome = true ∧
    (detect defaultVadConfig recAt1 speechFrame 20000).2 = some .max_duration ∧
    (detect cfgVadOff recAt1 speechFrame 20000).2 = none :=
  ⟨max_duration_guard.1 defaultVadConfig recAt1 speechFrame 20000 rfl rfl
      (by norm_num [recAt1, initialVadState])
      (by norm_num [recAt1, initialVadState, defaultVadConfig]),
   max_duration_guard.2.1 defaultVadConfig recAt1 speechFrame 20000 rfl rfl
      (by norm_num [recAt1, initialVadState])
      (by norm_num [recAt1, initialVadState, defaultVadConfig])
      (isSpeechLike_speechFrame recAt1 rfl rfl),
   max_duration_guard.2.2 cfgVadOff recAt1 speechFrame 20000 rfl⟩

/-- Witness for C2: a fully silent frame on an Active recording whose
accumulated silence already reached 900 ms, 10 s in, triggers the `silence`
stop via the offset characterization. -/
theorem silence_offset_iff_witness :
    (detect defaultVadConfig activeQuiet silentFrame 10000).2 = some .silence := by
  refine (silence_offset_iff.1 defaultVadConfig activeQuiet silentFrame 10000 rfl rfl rfl
    (by norm_num [activeQuiet, initialVadState])).mpr ⟨?_, ⟨?_, ?_⟩, ?_, rfl⟩
  · norm_num [activeQuiet, initialVadState, frameDurationMs, defaultVadConfig]
  · norm_num [activeQuiet, initialVadState, smoothedAfter, rmsOf, sumSquares,
      silentFrame, ratSqrt_zero, silenceThresholdOf]
  · norm_num [speechRatioOf, totalEnergyOf, silentFrame, defaultVadConfig]
  · norm_num [activeQuiet, initialVadState, defaultVadConfig]

/-- Witness for C3: one speech-like frame from Idle followed by a silent
frame leaves the machine Idle with a zeroed counter. -/
theorem onset_debounce_witness :
    (detect defaultVadConfig
        (detect defaultVadConfig initialVadState speechFrame 5).1
        silentFrame 6).1.speechActive = false ∧
    (detect defaultVadConfig
        (detect defaultVadConfig initialVadState speechFrame 5).1
        silentFrame 6).1.speechFrames = 0 :=
  onset_debounce.2.1 defaultVadConfig initialVadState speechFrame silentFrame 5 6
    rfl rfl rfl (isSpeechLike_speechFrame initialVadState rfl rfl)
    (isSpeechLike_zeroFrame defaultVadConfig
      (detect defaultVadConfig initialVadState speechFrame 5).1 0 0)

/-- Witness for C6. -/
theorem background_noise_bounds_witness :
    (0 < initialVadState.backgroundNoise ∧
      initialVadState.backgroundNoise ≤ 0.015) ∧
    (detect defaultVadConfig initialVadState silentFrame 5).1.backgroundNoise ≤ 0.01 :=
  ⟨background_noise_bounds.1 initialVadState ReachableVad.init,
   background_noise_bounds.2 defaultVadConfig initialVadState silentFrame 5 rfl
     (isSpeechLike_zeroFrame defaultVadConfig initialVadState 0 0) rfl⟩

/-- Witness for C7. -/
theorem silent_frame_safety_witness :
    rmsOf (List.replicate 4 0) = 0 ∧ speechRatioOf 48000 silentFrame = 0 ∧
    isSpeechLikeAt defaultVadConfig initialVadState (zeroFrame 4 4) = false :=
  ⟨silent_frame_safety.1 4, silent_frame_safety.2.1 48000 silentFrame rfl,
   silent_frame_safety.2.2 defaultVadConfig initialVadState 4 4⟩

/-- Three oversized turns (100 estimated tokens each). -/
def turnA : ConversationTurn :=
  { role := .user, content := List.replicate 400 'a', timestamp := 0 }

def turnB : ConversationTurn :=
  { role := .assistant, content := List.replicate 400 'b', timestamp := 1 }

def turnC : ConversationTurn :=
  { role := .user, content := List.replicate 400 'c', timestamp := 2 }

/-- Witness for C4: even with a zero context budget the two most recent of
three oversized turns survive pruning. -/
theorem prune_keeps_recent_turns_witness :
    2 ≤ (pruneConversationForContext [turnA, turnB, turnC] 0).length := by
  obtain ⟨k, _, _, hlen, _⟩ := prune_keeps_recent_turns [turnA, turnB, turnC] 0
  exact hlen (by simp)

/-- Session state whose previously processed utterance was "hello". -/
def dupState : OrchestratorState :=
  { turns := [], lastUtterance := "hello".toList, detectedUtterances := [],
    alert := none, voiceSessionError := none }

/-- Witness for C5: submitting "hello" again right after "hello" was
processed changes nothing and skips processing. -/
theorem duplicate_utterance_skipped_witness :
    handleRecordingComplete true dupState (some "hello".toList) =
      ({ dupState with alert := none, voiceSessionError := none }, none) := by
  have htrim : trimChars "hello".toList = "hello".toList := by decide
  have hstrip : stripBlankAudio "hello".toList = "hello".toList := by
    simp +decide [stripBlankAudio]
  apply duplicate_utterance_skipped
  · rw [htrim]; decide
  · rw [htrim]; decide
  · rw [htrim, hstrip, htrim]; decide
  · rw [htrim, hstrip, htrim]; rfl

/-- An orchestrator state with empty history and clear banners. -/
def emptyOrch : OrchestratorState :=
  { turns := [], lastUtterance := [], detectedUtterances := [],
    alert := none, voiceSessionError := none }

/-- Witness for C8: the sentinel transcript ` [BLANK_AUDIO] ` in session mode
is filtered with only a recoverable status surfaced. -/
theorem empty_or_sentinel_filtered_witness :
    (handleRecordingComplete true emptyOrch (some " [BLANK_AUDIO] ".toList)).2 = none ∧
    (handleRecordingComplete true emptyOrch
      (some " [BLANK_AUDIO] ".toList)).1.turns = emptyOrch.turns ∧
    (handleRecordingComplete true emptyOrch
      (some " [BLANK_AUDIO] ".toList)).1.lastUtterance = emptyOrch.lastUtterance ∧
    (true = true →
      ((handleRecordingComplete true emptyOrch
        (some " [BLANK_AUDIO] ".toList)).1.voiceSessionError).isSome = true) :=
  empty_or_sentinel_filtered true emptyOrch " [BLANK_AUDIO] ".toList
    (Or.inr (Or.inl (by decide)))

/-- A recorder mid-recording with one buffered chunk. -/
def readyModel : RecorderModel :=
  { hasStream := true, hasAnalyser := true, hasRecorder := true, chunks := [[1]],
    vad := { initialVadState with recording := true }, recorderError := none,
    isRecordingFlag := true }

/-- Witness for C9. -/
theorem start_idempotent_witness :
    startRecorder true true readyModel 7 =
      ({ readyModel with recorderError := none }, []) ∧
    (startRecorder true true readyModel 7).1.vad.recording = true :=
  ⟨start_idempotent.1 true readyModel 7 rfl rfl rfl rfl,
   start_idempotent.2 readyModel 7⟩

/-- Witness for C10. -/
theorem stop_event_callback_witness :
    handleStopEvent .manual [[9]] =
      { chunks := [], stopReason := .manual, isRecordingFlag := false,
        callback := none } ∧
    handleStopEvent .silence ([[1, 2], [], [3]].foldl dataAvailable []) =
      { chunks := [], stopReason := .manual, isRecordingFlag := false,
        callback := some (some [1, 2, 3]) } := by
  refine ⟨stop_event_callback.1 [[9]], ?_⟩
  rw [stop_event_callback.2 StopReason.silence [[1, 2], [], [3]] (Or.inl rfl)]
  decide

end VoiceLoop
